/-
Verification of the PointNet notebook (Copy_of_pointnet.ipynb).

The notebook is a linear training script.  We give a shallow embedding of the
pieces of the script that carry its specification claims:

* `OrthogonalRegularizer.__call__` — modelled over `ℚ` as `orthoCall`, with
  `tf.reshape`, `tf.tensordot(x, x, axes=(2, 2))` and the broadcast subtraction
  of `tf.eye` translated operation by operation via row-major flat indexing,
  exactly as TensorFlow lays tensors out.
* `parse_dataset` — modelled over an abstract directory environment
  (`Env`/`ClassFolder`): the class folders matched by the glob, their
  `train/`/`test/` file lists, and `trimesh.load(f).sample(n)` as an
  uninterpreted sampling function.
* `augment` — modelled with the random draw of `tf.random.uniform` and the
  permutation of `tf.random.shuffle` made explicit arguments.
* the `tnet` Dense layer initialisers, `Reshape` and `Dot(axes=(2,1))`.
* the fallible variants (`Except`) for exception propagation, and the
  notebook's cell-by-cell stage trace for the temporal claim.

Machine reals (float32/float64) are idealised as `ℚ`; all definitions are
executable so that concrete instances evaluate by `decide`.
-/
import Mathlib

namespace PointNet

/-! ## OrthogonalRegularizer

Source (`class OrthogonalRegularizer`):
```python
def __init__(self, num_features, l2reg=0.001):
    self.num_features = num_features
    self.l2reg = l2reg
    self.eye = tf.eye(num_features)

def __call__(self, x):
    x = tf.reshape(x, (-1, self.num_features, self.num_features))
    xxt = tf.tensordot(x, x, axes=(2, 2))
    xxt = tf.reshape(xxt, (-1, self.num_features, self.num_features))
    return tf.reduce_sum(self.l2reg * tf.square(xxt - self.eye))
```
A weight tensor `x` is its row-major flat data, a `List ℚ`.  With
`n = num_features` and `k = x.length / (n*n)` (the `-1` of the reshape),
`tf.tensordot(x, x, axes=(2, 2))` contracts axis 2 of each operand and has
shape `(k, n, k, n)`; the second reshape views its `k*n*k*n` row-major entries
as `k*k` matrices of shape `(n, n)`, from which `self.eye` is subtracted by
broadcasting. -/

/-- Entry `(a, i, m)` of `tf.reshape(x, (-1, n, n))`, row-major. -/
def reshape3 (n : ℕ) (x : List ℚ) (a i m : ℕ) : ℚ :=
  x.getD (a * (n * n) + i * n + m) 0

/-- Entry `(a, i, b, j)` of `tf.tensordot(x, x, axes=(2, 2))` applied to the
reshaped tensor: the contraction of axis 2 of both operands. -/
def tensordot22 (n : ℕ) (x : List ℚ) (a i b j : ℕ) : ℚ :=
  ∑ m ∈ Finset.range n, reshape3 n x a i m * reshape3 n x b j m

/-- The row-major flat data of `tf.tensordot(x, x, axes=(2, 2))`, of shape
`(k, n, k, n)`: position `p` decomposes as
`p = a*(n*k*n) + i*(k*n) + b*n + j`. -/
def xxtFlat (k n : ℕ) (x : List ℚ) : List ℚ :=
  (List.range (k * n * (k * n))).map fun p =>
    tensordot22 n x (p / (n * (k * n))) (p / (k * n) % n) (p / n % k) (p % n)

/-- Entry of `tf.eye(n)` at `(r, c)`. -/
def eye (n r c : ℕ) : ℚ :=
  if r = c then 1 else 0

/-- Value of `OrthogonalRegularizer(num_features=n, l2reg).__call__ x`: the flat
product tensor is reshaped to `(k*k, n, n)`, `tf.eye n` is broadcast-subtracted
from every `(n, n)` slice, and the squares are summed, scaled by `l2reg`. -/
def orthoCall (n : ℕ) (l2reg : ℚ) (x : List ℚ) : ℚ :=
  let k := x.length / (n * n)
  let y := xxtFlat k n x
  ∑ q ∈ Finset.range (k * k), ∑ r ∈ Finset.range n, ∑ c ∈ Finset.range n,
    l2reg * (y.getD (q * (n * n) + r * n + c) 0 - eye n r c) ^ 2

/-- The penalty as the spec words it: `l2reg` times the sum of the squared
entrywise deviations of `X * Xᵀ` from the identity, `X` ranging over the `k`
matrices encoded in `x`. -/
def specPenalty (n : ℕ) (l2reg : ℚ) (x : List ℚ) : ℚ :=
  let k := x.length / (n * n)
  ∑ a ∈ Finset.range k, ∑ i ∈ Finset.range n, ∑ j ∈ Finset.range n,
    l2reg *
      ((∑ m ∈ Finset.range n, reshape3 n x a i m * reshape3 n x a j m) -
        eye n i j) ^ 2

/-! ### Lemmas about the regularizer -/

theorem getD_map_range (N p : ℕ) (f : ℕ → ℚ) (hp : p < N) :
    ((List.range N).map f).getD p 0 = f p := by
  rw [List.getD_eq_getElem?_getD, List.getElem?_map, List.getElem?_range hp]
  rfl

theorem row_col_lt (n r c : ℕ) (hr : r < n) (hc : c < n) : r * n + c < n * n :=
  calc r * n + c < r * n + n := by omega
    _ = (r + 1) * n := by ring
    _ ≤ n * n := Nat.mul_le_mul_right n hr

/-- When `x` encodes a single `n × n` matrix, the regularizer's value is
exactly the spec's per-matrix penalty: the flat reindexing of the tensordot
collapses to `X * Xᵀ` compared entrywise with the identity. -/
theorem orthoCall_eq_specPenalty_of_single (n : ℕ) (l2 : ℚ) (x : List ℚ)
    (hn : 0 < n) (h : x.length = n * n) :
    orthoCall n l2 x = specPenalty n l2 x := by
  have hnn : 0 < n * n := Nat.mul_pos hn hn
  have hk : x.length / (n * n) = 1 := by rw [h, Nat.div_self hnn]
  simp only [orthoCall, specPenalty, hk, Finset.sum_range_one, one_mul,
    zero_mul, zero_add]
  refine Finset.sum_congr rfl fun r hr => Finset.sum_congr rfl fun c hc => ?_
  have hr := Finset.mem_range.mp hr
  have hc := Finset.mem_range.mp hc
  have hp : r * n + c < n * n := row_col_lt n r c hr hc
  have hgd : (xxtFlat 1 n x).getD (r * n + c) 0 =
      tensordot22 n x ((r * n + c) / (n * (1 * n))) ((r * n + c) / (1 * n) % n)
        ((r * n + c) / n % 1) ((r * n + c) % n) := by
    unfold xxtFlat
    exact getD_map_range _ _ _ (by simpa using hp)
  have hdiv : (r * n + c) / n = r := by
    rw [Nat.mul_comm r n, Nat.mul_add_div hn, Nat.div_eq_of_lt hc, Nat.add_zero]
  have h1 : (r * n + c) / (n * (1 * n)) = 0 := by
    rw [Nat.one_mul]
    exact Nat.div_eq_of_lt hp
  have h2 : (r * n + c) / (1 * n) % n = r := by
    rw [Nat.one_mul, hdiv, Nat.mod_eq_of_lt hr]
  have h3 : (r * n + c) / n % 1 = 0 := Nat.mod_one _
  have h4 : (r * n + c) % n = c := by
    rw [Nat.mul_comm r n, Nat.mul_add_mod, Nat.mod_eq_of_lt hc]
  rw [hgd, h1, h2, h3, h4]
  rfl

/-- The regularizer's value is a sum of `l2reg` times squares. -/
theorem orthoCall_nonneg (n : ℕ) (l2 : ℚ) (x : List ℚ) (hl : 0 ≤ l2) :
    0 ≤ orthoCall n l2 x := by
  unfold orthoCall
  refine Finset.sum_nonneg fun q _ => Finset.sum_nonneg fun r _ =>
    Finset.sum_nonneg fun c _ => mul_nonneg hl (sq_nonneg _)

/-! ### Claim C1 -/

/-- C1, counterexample: for the flat tensor encoding the two stacked `2 × 2`
identity matrices, the value returned by `__call__` is `1/125`, while `l2reg`
times the sum of the squared entrywise deviations of `X * Xᵀ` from the
identity over the matrices encoded in `x` is `0`: the claimed equality fails,
because `tf.tensordot(x, x, axes=(2, 2))` also forms cross products between
distinct matrices of the batch and the reshape misaligns the broadcast
identity. -/
theorem c1_counterexample :
    ¬ orthoCall 2 (1 / 1000) [1, 0, 0, 1, 1, 0, 0, 1] =
      specPenalty 2 (1 / 1000) [1, 0, 0, 1, 1, 0, 0, 1] := by
  have h1 : orthoCall 2 (1 / 1000) [1, 0, 0, 1, 1, 0, 0, 1] = 1 / 125 := by
    norm_num [orthoCall, xxtFlat, tensordot22, reshape3, eye,
      Finset.sum_range_succ, List.range_succ]
  have h2 : specPenalty 2 (1 / 1000) [1, 0, 0, 1, 1, 0, 0, 1] = 0 := by
    norm_num [specPenalty, reshape3, eye, Finset.sum_range_succ]
  rw [h1, h2]
  norm_num

/-- C1, amended: when the weight tensor encodes a single
`num_features × num_features` matrix (`k = 1`, which is the only case in which
the batched products of the claim and the tensordot of the code coincide), the
value returned by `__call__` equals `l2reg` times the sum of the squared
entrywise deviations of `X * Xᵀ` from the identity matrix. -/
theorem c1_single_matrix_value (n : ℕ) (l2 : ℚ) (x : List ℚ)
    (hn : 0 < n) (h : x.length = n * n) :
    orthoCall n l2 x = specPenalty n l2 x :=
  orthoCall_eq_specPenalty_of_single n l2 x hn h

/-- C1, witness: the amended claim at `n = 2`, `x = [1, 2, 3, 4]`. -/
theorem c1_single_matrix_value_witness :
    0 < 2 ∧ ([(1 : ℚ), 2, 3, 4].length = 2 * 2) ∧
      orthoCall 2 (1 / 1000) [1, 2, 3, 4] =
        specPenalty 2 (1 / 1000) [1, 2, 3, 4] :=
  ⟨by decide, by decide, c1_single_matrix_value 2 (1 / 1000) [1, 2, 3, 4]
    (by decide) (by decide)⟩

/-! ### Claim C10 -/

/-- C10, counterexample: for the flat tensor encoding the two stacked `2 × 2`
identity matrices, every matrix product formed from the reshaped input equals
the identity matrix, yet the penalty is `1/125 ≠ 0`: the zero-penalty half of
the claim fails for batches of two or more matrices. -/
theorem c10_counterexample :
    (∀ a < 2, ∀ b < 2, ∀ i < 2, ∀ j < 2,
      (∑ m ∈ Finset.range 2,
        reshape3 2 [1, 0, 0, 1, 1, 0, 0, 1] a i m *
          reshape3 2 [1, 0, 0, 1, 1, 0, 0, 1] b j m) = eye 2 i j) ∧
    ¬ orthoCall 2 (1 / 1000) [1, 0, 0, 1, 1, 0, 0, 1] = 0 := by
  constructor
  · intro a ha b hb i hi j hj
    interval_cases a <;> interval_cases b <;> interval_cases i <;>
      interval_cases j <;>
      norm_num [reshape3, eye, Finset.sum_range_succ]
  · have h1 : orthoCall 2 (1 / 1000) [1, 0, 0, 1, 1, 0, 0, 1] = 1 / 125 := by
      norm_num [orthoCall, xxtFlat, tensordot22, reshape3, eye,
        Finset.sum_range_succ, List.range_succ]
    rw [h1]
    norm_num

/-- C10, amended: the penalty is nonnegative whenever `l2reg` is (in
particular for the constructor default `l2reg = 0.001`), and it equals zero
when the input encodes a single matrix (`k = 1`) whose product with its own
transpose is the identity — in particular for a single orthonormal matrix.
For `k ≥ 2` the penalty can be nonzero even when every pairwise product
equals the identity, because the reshape misaligns the broadcast identity. -/
theorem c10_nonneg_and_single_orthonormal_zero (n : ℕ) (l2 : ℚ) (x : List ℚ) :
    (0 ≤ l2 → 0 ≤ orthoCall n l2 x) ∧
    (0 < n → x.length = n * n →
      (∀ i < n, ∀ j < n,
        (∑ m ∈ Finset.range n, reshape3 n x 0 i m * reshape3 n x 0 j m) =
          eye n i j) →
      orthoCall n l2 x = 0) := by
  refine ⟨orthoCall_nonneg n l2 x, fun hn h horth => ?_⟩
  rw [orthoCall_eq_specPenalty_of_single n l2 x hn h]
  have hk : x.length / (n * n) = 1 := by
    rw [h, Nat.div_self (Nat.mul_pos hn hn)]
  simp only [specPenalty, hk, Finset.sum_range_one]
  refine Finset.sum_eq_zero fun i hi => Finset.sum_eq_zero fun j hj => ?_
  rw [horth i (Finset.mem_range.mp hi) j (Finset.mem_range.mp hj)]
  ring

/-- C10, witness: the amended claim at the single `2 × 2` identity matrix with
`l2reg = 0.001`. -/
theorem c10_witness :
    (0 ≤ orthoCall 2 (1 / 1000) [1, 0, 0, 1]) ∧
      orthoCall 2 (1 / 1000) [1, 0, 0, 1] = 0 :=
  ⟨(c10_nonneg_and_single_orthonormal_zero 2 (1 / 1000) [1, 0, 0, 1]).1
      (by norm_num),
   (c10_nonneg_and_single_orthonormal_zero 2 (1 / 1000) [1, 0, 0, 1]).2
      (by decide) (by decide)
      (by
        intro i hi j hj
        interval_cases i <;> interval_cases j <;>
          norm_num [reshape3, eye, Finset.sum_range_succ])⟩

/-! ## parse_dataset

Source:
```python
def parse_dataset(num_points=2048):
    train_points = []
    train_labels = []
    test_points = []
    test_labels = []
    class_map = {}
    folders = glob.glob(os.path.join(DATA_DIR, "[!README]*"))

    for i, folder in enumerate(folders):
        print("processing class: {}".format(os.path.basename(folder)))
        # store folder name with ID so we can retrieve later
        class_map[i] = folder.split("/")[-1]
        # gather all files
        train_files = glob.glob(os.path.join(folder, "train/*"))
        test_files = glob.glob(os.path.join(folder, "test/*"))

        for f in train_files:
            train_points.append(trimesh.load(f).sample(num_points))
            train_labels.append(i)

        for f in test_files:
            test_points.append(trimesh.load(f).sample(num_points))
            test_labels.append(i)

    return (np.array(train_points), np.array(test_points),
            np.array(train_labels), np.array(test_labels), class_map)
```
The filesystem is abstracted into an `Env`: the list of class folders the
glob matches (in glob order), per folder the `train/*` and `test/*` file
lists, and the composite library call `trimesh.load(f).sample(n)` as an
uninterpreted function `loadSample`.  A sampled point cloud is a
`List (List ℚ)` (points, each a list of coordinates) so that point count and
channel count are provable properties rather than typing artifacts.  A
`folder.split("/")[-1]` basename is the folder's `name` field.  The python
dict `class_map`, keyed by the successive ints `0, 1, ...`, is the
association list of its insertions in order. -/

/-- One class directory matched by the glob. -/
structure ClassFolder where
  name : String
  trainFiles : List String
  testFiles : List String

/-- The directory environment and the mesh-sampling library call. -/
structure Env where
  folders : List ClassFolder
  loadSample : String → ℕ → List (List ℚ)

/-- The five components `parse_dataset` returns. -/
structure ParseResult where
  train_points : List (List (List ℚ))
  test_points : List (List (List ℚ))
  train_labels : List ℕ
  test_labels : List ℕ
  class_map : List (ℕ × String)

/-- The body of the `for i, folder in enumerate(folders)` loop: each folder
appends its sampled train/test clouds, the labels `i`, and the class-map
entry `(i, basename)` to the accumulated lists. -/
def parseStep (env : Env) (num_points : ℕ) (acc : ParseResult)
    (p : ℕ × ClassFolder) : ParseResult where
  train_points :=
    acc.train_points ++ p.2.trainFiles.map fun f => env.loadSample f num_points
  test_points :=
    acc.test_points ++ p.2.testFiles.map fun f => env.loadSample f num_points
  train_labels := acc.train_labels ++ p.2.trainFiles.map fun _ => p.1
  test_labels := acc.test_labels ++ p.2.testFiles.map fun _ => p.1
  class_map := acc.class_map ++ [(p.1, p.2.name)]

/-- The function `parse_dataset`: the enumerate loop over the matched folders, starting
from empty accumulators. -/
def parse_dataset (env : Env) (num_points : ℕ) : ParseResult :=
  (env.folders.enum).foldl (parseStep env num_points) ⟨[], [], [], [], []⟩

/-- Closed form of the loop, by induction on the folder list with the
enumeration start index and the accumulator generalized. -/
theorem parseFoldl_closed (env : Env) (num_points : ℕ) :
    ∀ (folders : List ClassFolder) (s : ℕ) (acc : ParseResult),
      (List.enumFrom s folders).foldl (parseStep env num_points) acc =
        ⟨acc.train_points ++ (List.enumFrom s folders).flatMap
            (fun p => p.2.trainFiles.map fun f => env.loadSample f num_points),
          acc.test_points ++ (List.enumFrom s folders).flatMap
            (fun p => p.2.testFiles.map fun f => env.loadSample f num_points),
          acc.train_labels ++ (List.enumFrom s folders).flatMap
            (fun p => p.2.trainFiles.map fun _ => p.1),
          acc.test_labels ++ (List.enumFrom s folders).flatMap
            (fun p => p.2.testFiles.map fun _ => p.1),
          acc.class_map ++ (List.enumFrom s folders).map
            (fun p => (p.1, p.2.name))⟩ := by
  intro folders
  induction folders with
  | nil => intro s acc; simp [ParseResult.mk.injEq]
  | cons fo rest ih =>
      intro s acc
      simp only [List.enumFrom, List.foldl_cons, List.flatMap_cons,
        List.map_cons, ih (s + 1)]
      simp [parseStep, List.append_assoc]

theorem parse_dataset_eq (env : Env) (num_points : ℕ) :
    parse_dataset env num_points =
      ⟨(env.folders.enum).flatMap
          (fun p => p.2.trainFiles.map fun f => env.loadSample f num_points),
        (env.folders.enum).flatMap
          (fun p => p.2.testFiles.map fun f => env.loadSample f num_points),
        (env.folders.enum).flatMap (fun p => p.2.trainFiles.map fun _ => p.1),
        (env.folders.enum).flatMap (fun p => p.2.testFiles.map fun _ => p.1),
        (env.folders.enum).map fun p => (p.1, p.2.name)⟩ := by
  unfold parse_dataset
  rw [List.enum_eq_enumFrom, parseFoldl_closed]
  simp

/-- The prediction-visualization cell is the only later reader of the class
map: it formats `"pred: {}, label: {}"` titles from
`CLASS_MAP[preds[i].numpy()]` and `CLASS_MAP[labels.numpy()[i]]`.  The map is
threaded through so that the absence of mutation is a provable frame
property: the cell returns the titles and the untouched map. -/
def plotPredictions (class_map : List (ℕ × String)) (preds labels : List ℕ) :
    List (Option String × Option String) × List (ℕ × String) :=
  ((preds.zip labels).map fun pl =>
      (class_map.lookup pl.1, class_map.lookup pl.2), class_map)

/-- Dict lookup on the class map built from `List.enumFrom s folders`. -/
theorem lookup_enumFrom_names (folders : List ClassFolder) :
    ∀ (s i : ℕ),
      ((List.enumFrom s folders).map fun p => (p.1, p.2.name)).lookup i =
        if i < s then none else (folders[i - s]?).map ClassFolder.name := by
  induction folders with
  | nil => intro s i; cases Nat.lt_or_ge i s <;> simp
  | cons fo rest ih =>
      intro s i
      simp only [List.enumFrom, List.map_cons, List.lookup]
      rcases Nat.lt_trichotomy i s with hlt | heq | hgt
      · have hne : (i == s) = false := by simp; omega
        rw [hne]
        simp only [Bool.false_eq_true, if_neg, ih (s + 1) i]
        have : i < s + 1 := by omega
        simp [hlt, this]
      · subst heq
        simp
      · have hne : (i == s) = false := by simp; omega
        rw [hne]
        simp only [Bool.false_eq_true, if_neg, ih (s + 1) i]
        have h1 : ¬ i < s := by omega
        have h2 : ¬ i < s + 1 := by omega
        have h3 : i - s = (i - (s + 1)) + 1 := by omega
        simp [h1, h2, h3]

/-! ### Claim C2 -/

/-- C2: assuming only the `trimesh` contract that `mesh.sample(m)` returns
`m` points of 3 coordinates, (a) every point cloud in `train_points` and
`test_points` has exactly `num_points` points of exactly 3 channels, and
(b) these are the only structural constraints: every list of 3-channel
points of the right count is realized as a returned point cloud of some
directory environment. -/
theorem c2_point_cloud_shape (env : Env) (n : ℕ)
    (h : ∀ f m, (env.loadSample f m).length = m ∧
      ∀ p ∈ env.loadSample f m, p.length = 3) :
    ((∀ pc ∈ (parse_dataset env n).train_points,
        pc.length = n ∧ ∀ p ∈ pc, p.length = 3) ∧
      (∀ pc ∈ (parse_dataset env n).test_points,
        pc.length = n ∧ ∀ p ∈ pc, p.length = 3)) ∧
    (∀ pc : List (List ℚ), pc.length = n → (∀ p ∈ pc, p.length = 3) →
      ∃ env2 : Env, (parse_dataset env2 n).train_points = [pc]) := by
  refine ⟨⟨?_, ?_⟩, ?_⟩
  · intro pc hpc
    rw [parse_dataset_eq] at hpc
    simp only [List.mem_flatMap, List.mem_map] at hpc
    obtain ⟨p, -, f, -, rfl⟩ := hpc
    exact h f n
  · intro pc hpc
    rw [parse_dataset_eq] at hpc
    simp only [List.mem_flatMap, List.mem_map] at hpc
    obtain ⟨p, -, f, -, rfl⟩ := hpc
    exact h f n
  · intro pc _ _
    exact ⟨⟨[⟨"chair", ["chair/train/chair_0001.off"], []⟩], fun _ _ => pc⟩,
      by simp [parse_dataset_eq]⟩

/-- C2, witness: the shape theorem applied to a one-folder environment whose
sampler returns `m` copies of the origin. -/
theorem c2_point_cloud_shape_witness :
    (∀ pc ∈ (parse_dataset
        ⟨[⟨"chair", ["a"], ["b"]⟩],
          fun _ m => List.replicate m [0, 0, 0]⟩ 4).train_points,
      pc.length = 4 ∧ ∀ p ∈ pc, p.length = 3) ∧
    ∃ env2 : Env,
      (parse_dataset env2 4).train_points = [[[1, 2, 3], [4, 5, 6], [7, 8, 9], [10, 11, 12]]] := by
  have h := c2_point_cloud_shape
    ⟨[⟨"chair", ["a"], ["b"]⟩], fun _ m => List.replicate m [0, 0, 0]⟩ 4
    (by
      intro f m
      constructor
      · simp
      · intro p hp
        simp only [List.eq_of_mem_replicate hp]
        rfl)
  exact ⟨h.1.1, h.2 [[1, 2, 3], [4, 5, 6], [7, 8, 9], [10, 11, 12]]
    (by simp) (by intro p hp; fin_cases hp <;> rfl)⟩

/-! ### Claim C3 -/

/-- Zipping the flat list of per-folder values with the flat list of
per-folder labels pairs each value with its own folder's label. -/
theorem zip_flatMap_label {σ ν : Type} (l : List σ) (files : σ → List String)
    (val : σ → String → ν) (lab : σ → ℕ) :
    (l.flatMap fun p => (files p).map (val p)).zip
        (l.flatMap fun p => (files p).map fun _ => lab p) =
      l.flatMap fun p => (files p).map fun f => (val p f, lab p) := by
  induction l with
  | nil => rfl
  | cons p rest ih =>
      simp only [List.flatMap_cons]
      rw [List.zip_append (by simp), ih, List.zip_map']

/-- C3: every returned label is the enumerate index of the class folder from
which the paired point cloud was sampled: zipping points with labels yields,
folder by folder in order, the folder's sampled clouds each paired with that
folder's index — and the label list has exactly one entry per point cloud. -/
theorem c3_labels_pair_clouds (env : Env) (n : ℕ) :
    ((parse_dataset env n).train_points.zip (parse_dataset env n).train_labels
        = (env.folders.enum).flatMap
            (fun p => p.2.trainFiles.map fun f => (env.loadSample f n, p.1))) ∧
    ((parse_dataset env n).test_points.zip (parse_dataset env n).test_labels
        = (env.folders.enum).flatMap
            (fun p => p.2.testFiles.map fun f => (env.loadSample f n, p.1))) ∧
    (parse_dataset env n).train_labels.length =
      (parse_dataset env n).train_points.length ∧
    (parse_dataset env n).test_labels.length =
      (parse_dataset env n).test_points.length := by
  rw [parse_dataset_eq]
  refine ⟨zip_flatMap_label _ _ _ _, zip_flatMap_label _ _ _ _, ?_, ?_⟩ <;>
    simp [List.length_flatMap, Function.comp_def]

/-! ### Claim C4 -/

/-- C4: the class map returned by `parse_dataset` is exactly the enumeration
of the matched class directories' base names — entry `i` holds the name of
the `i`-th matched directory, dict lookup of `i` returns the `i`-th
directory's name (and `none` beyond the directory count, so the map is built
once, only from directory names) — and the later prediction-plotting access
reads the map without changing it. -/
theorem c4_class_map_read_only (env : Env) (n : ℕ) :
    ((parse_dataset env n).class_map =
        (env.folders.enum).map fun p => (p.1, p.2.name)) ∧
    (∀ i, ((parse_dataset env n).class_map).lookup i =
        (env.folders[i]?).map ClassFolder.name) ∧
    (∀ preds labels,
      (plotPredictions (parse_dataset env n).class_map preds labels).2 =
        (parse_dataset env n).class_map) := by
  refine ⟨by rw [parse_dataset_eq], fun i => ?_, fun preds labels => rfl⟩
  rw [parse_dataset_eq]
  simpa using lookup_enumFrom_names env.folders 0 i

/-! ## tnet initialisation

Source:
```python
def tnet(inputs, num_features):
    # Initalise bias as the indentity matrix
    bias = keras.initializers.Constant(np.eye(num_features).flatten())
    reg = OrthogonalRegularizer(num_features)
    x = conv_bn(inputs, 32)
    ...
    x = layers.Dense(
        num_features * num_features,
        kernel_initializer="zeros",
        bias_initializer=bias,
        activity_regularizer=reg,
    )(x)
    feat_T = layers.Reshape((num_features, num_features))(x)
    # Apply affine transformation to input features
    return layers.Dot(axes=(2, 1))([inputs, feat_T])
```
The conv/dense stack feeding the final `Dense` is irrelevant at
initialisation: with an all-zero kernel the `Dense` output is its bias for
EVERY input vector, so we quantify over an arbitrary dense input `x`.  A
batch element of `inputs` is a `(p, num_features)` matrix; `Dot(axes=(2,1))`
contracts its feature axis with the row axis of `feat_T`. -/

/-- keras `Dense(u)` on one feature vector: `y = x·W + b`, kernel `W` of
shape `(d, u)`. -/
def denseApply (d u : ℕ) (W : Fin d → Fin u → ℚ) (b : Fin u → ℚ)
    (x : Fin d → ℚ) : Fin u → ℚ :=
  fun j => (∑ i, x i * W i j) + b j

/-- The initializer `kernel_initializer="zeros"`. -/
def zerosKernel (d u : ℕ) : Fin d → Fin u → ℚ := fun _ _ => 0

/-- The bias initializer `keras.initializers.Constant(np.eye(num_features).flatten())`: position
`p` of the row-major flattened identity holds `1` iff `p / n = p % n`. -/
def eyeFlat (n : ℕ) : Fin (n * n) → ℚ :=
  fun p => if p.val / n = p.val % n then 1 else 0

/-- The layer `layers.Reshape((n, n))` on a length-`n*n` feature vector, row-major. -/
def reshapeSquare (n : ℕ) (v : Fin (n * n) → ℚ) : Matrix (Fin n) (Fin n) ℚ :=
  fun i j => v ⟨i.val * n + j.val, row_col_lt n i.val j.val i.isLt j.isLt⟩

/-- The layer `layers.Dot(axes=(2, 1))([inputs, feat_T])` on one batch element. -/
def dotAxes21 (p n : ℕ) (inputs : Matrix (Fin p) (Fin n) ℚ)
    (T : Matrix (Fin n) (Fin n) ℚ) : Matrix (Fin p) (Fin n) ℚ :=
  fun i j => ∑ m, inputs i m * T m j

/-! ### Claim C8 -/

/-- C8: at initialisation the `tnet` Dense layer has all-zero kernel and the
flattened identity as bias, so for every dense input its output is the
flattened identity, the reshaped `feat_T` is the identity matrix, and the
`Dot(axes=(2, 1))` returns every input batch element unchanged. -/
theorem c8_tnet_identity_at_init (n d p : ℕ) (x : Fin d → ℚ)
    (inputs : Matrix (Fin p) (Fin n) ℚ) :
    denseApply d (n * n) (zerosKernel d (n * n)) (eyeFlat n) x = eyeFlat n ∧
    reshapeSquare n
      (denseApply d (n * n) (zerosKernel d (n * n)) (eyeFlat n) x) = 1 ∧
    dotAxes21 p n inputs
      (reshapeSquare n
        (denseApply d (n * n) (zerosKernel d (n * n)) (eyeFlat n) x)) =
      inputs := by
  have hdense : denseApply d (n * n) (zerosKernel d (n * n)) (eyeFlat n) x =
      eyeFlat n := by
    funext j
    simp [denseApply, zerosKernel]
  have hreshape : reshapeSquare n (eyeFlat n) = 1 := by
    funext i j
    have hdiv : (i.val * n + j.val) / n = i.val := by
      rw [Nat.mul_comm i.val n, Nat.mul_add_div i.pos, Nat.div_eq_of_lt j.isLt,
        Nat.add_zero]
    have hmod : (i.val * n + j.val) % n = j.val := by
      rw [Nat.mul_comm i.val n, Nat.mul_add_mod, Nat.mod_eq_of_lt j.isLt]
    simp only [reshapeSquare, eyeFlat, hdiv, hmod, Matrix.one_apply]
    simp [Fin.ext_iff]
  refine ⟨hdense, by rw [hdense, hreshape], ?_⟩
  rw [hdense, hreshape]
  funext i j
  simp [dotAxes21, Matrix.one_apply, mul_ite]

/-! ## augment

Source:
```python
def augment(points, label):
    # jitter points
    points += tf.random.uniform(points.shape, -0.005, 0.005, dtype=tf.float64)
    # shuffle points
    points = tf.random.shuffle(points)
    return points, label
```
`tf.random.uniform(shape, minval, maxval)` draws every entry from the
HALF-OPEN interval `[minval, maxval)` (the lower bound is attainable, the
upper is not); `tf.random.shuffle` permutes along axis 0, i.e. permutes the
rows.  The two random draws are made explicit arguments, constrained by
exactly what the library guarantees about them. -/

/-- Elementwise `points += jitter` for same-shape operands. -/
def addJitter (points jitter : List (List ℚ)) : List (List ℚ) :=
  points.zipWith (fun p j => p.zipWith (· + ·) j) jitter

/-- A possible output of `tf.random.uniform(points.shape, -0.005, 0.005)`:
the shape of `points`, every entry in `[-0.005, 0.005)`. -/
def validUniformDraw (points jitter : List (List ℚ)) : Prop :=
  List.Forall₂ (fun p j => p.length = j.length) points jitter ∧
  ∀ row ∈ jitter, ∀ v ∈ row, -(1 / 200) ≤ v ∧ v < 1 / 200

/-- A possible behaviour of `tf.random.shuffle`: a row permutation. -/
def validShuffle (shuffle : List (List ℚ) → List (List ℚ)) : Prop :=
  ∀ l, (shuffle l).Perm l

/-- The function `augment` with the random draws explicit. -/
def augment (jitter : List (List ℚ))
    (shuffle : List (List ℚ) → List (List ℚ))
    (points : List (List ℚ)) (label : ℕ) : List (List ℚ) × ℕ :=
  (shuffle (addJitter points jitter), label)

/-- Each row of `points + jitter` deviates coordinatewise from `points` by a
jitter value: at most `1/200` in absolute value, strictly below `1/200`. -/
theorem row_deviation (p j : List ℚ) (h : p.length = j.length)
    (hb : ∀ v ∈ j, -(1 / 200) ≤ v ∧ v < 1 / 200) :
    List.Forall₂ (fun a b => |b - a| ≤ 1 / 200 ∧ b - a < 1 / 200) p
      (p.zipWith (· + ·) j) := by
  induction p generalizing j with
  | nil => cases j <;> constructor
  | cons a p ih =>
      cases j with
      | nil => simp at h
      | cons v j =>
          simp only [List.zipWith_cons_cons]
          have hv := hb v (List.mem_cons_self v j)
          refine List.Forall₂.cons ⟨?_, ?_⟩
            (ih j (by simpa using h) fun w hw => hb w (List.mem_cons_of_mem _ hw))
          · rw [add_sub_cancel_left, abs_le]
            exact ⟨hv.1, le_of_lt hv.2⟩
          · rw [add_sub_cancel_left]
            exact hv.2

/-! ### Claim C9 -/

/-- C9, counterexample: `tf.random.uniform`'s interval is half-open
`[-0.005, 0.005)`, so the draw `-0.005` is valid; with it the first
coordinate of the augmented cloud deviates from the input by exactly
`0.005` in absolute value, refuting the claimed strict bound. -/
theorem c9_counterexample :
    validUniformDraw [[0, 0, 0]] [[-(1 / 200), 0, 0]] ∧
    validShuffle (fun l => l) ∧
    (augment [[-(1 / 200), 0, 0]] (fun l => l) [[(0 : ℚ), 0, 0]] 5).1 =
      [[-(1 / 200), 0, 0]] ∧
    ¬ |((augment [[-(1 / 200), 0, 0]] (fun l => l)
        [[(0 : ℚ), 0, 0]] 5).1.headD []).headD 0 - 0| < 1 / 200 := by
  refine ⟨⟨?_, ?_⟩, fun l => List.Perm.refl l, ?_, ?_⟩
  · simp
  · intro row hrow v hv
    fin_cases hrow
    fin_cases hv <;> norm_num
  · norm_num [augment, addJitter]
  · have h1 : ((augment [[-(1 / 200), 0, 0]] (fun l => l)
        [[(0 : ℚ), 0, 0]] 5).1.headD []).headD 0 = -(1 / 200) := by
      norm_num [augment, addJitter]
    have h2 : |(-(1 / 200) : ℚ) - 0| = 1 / 200 := by
      rw [sub_zero, abs_neg]
      exact abs_of_nonneg (by norm_num)
    rw [h1, h2]
    norm_num

/-- C9, amended: for every input point array and label and every valid
random draw, `augment` returns the label unchanged together with a point
array of the same shape whose rows are a permutation of the input rows with
each coordinate perturbed by a value drawn from `[-0.005, 0.005)` — hence by
at most `0.005` in absolute value (the bound `0.005` itself is attained by
the valid draw `-0.005`, so it is not strict), and strictly below `0.005`
from above. -/
theorem c9_augment_jitter_shuffle (points jitter : List (List ℚ))
    (shuffle : List (List ℚ) → List (List ℚ)) (label : ℕ)
    (hj : validUniformDraw points jitter) (hs : validShuffle shuffle) :
    (augment jitter shuffle points label).2 = label ∧
    (augment jitter shuffle points label).1.Perm (addJitter points jitter) ∧
    (augment jitter shuffle points label).1.length = points.length ∧
    List.Forall₂
      (fun p q => List.Forall₂
        (fun a b => |b - a| ≤ 1 / 200 ∧ b - a < 1 / 200) p q)
      points (addJitter points jitter) := by
  have hlen : (addJitter points jitter).length = points.length := by
    unfold addJitter
    rw [List.length_zipWith, hj.1.length_eq, Nat.min_self]
  have hdev : List.Forall₂
      (fun p q => List.Forall₂
        (fun a b => |b - a| ≤ 1 / 200 ∧ b - a < 1 / 200) p q)
      points (addJitter points jitter) := by
    unfold addJitter
    clear hlen
    obtain ⟨hshape, hbound⟩ := hj
    induction hshape with
    | nil => constructor
    | cons hpj _ ih =>
        simp only [List.zipWith_cons_cons]
        exact List.Forall₂.cons
          (row_deviation _ _ hpj fun w hw =>
            hbound _ (List.mem_cons_self ..) w hw)
          (ih fun row hrow => hbound row (List.mem_cons_of_mem _ hrow))
  refine ⟨rfl, hs _, ?_, hdev⟩
  show (shuffle (addJitter points jitter)).length = points.length
  rw [(hs _).length_eq, hlen]

/-- C9, witness: the amended claim at a one-point cloud with draw
`[0.001, 0, -0.001]` and the identity shuffle. -/
theorem c9_augment_jitter_shuffle_witness :
    (augment [[1 / 1000, 0, -(1 / 1000)]] (fun l => l) [[(0 : ℚ), 0, 0]] 7).2 = 7 ∧
    (augment [[1 / 1000, 0, -(1 / 1000)]] (fun l => l)
        [[(0 : ℚ), 0, 0]] 7).1.Perm
      (addJitter [[(0 : ℚ), 0, 0]] [[1 / 1000, 0, -(1 / 1000)]]) ∧
    (augment [[1 / 1000, 0, -(1 / 1000)]] (fun l => l)
        [[(0 : ℚ), 0, 0]] 7).1.length = 1 ∧
    List.Forall₂
      (fun p q => List.Forall₂
        (fun a b => |b - a| ≤ 1 / 200 ∧ b - a < 1 / 200) p q)
      [[(0 : ℚ), 0, 0]]
      (addJitter [[(0 : ℚ), 0, 0]] [[1 / 1000, 0, -(1 / 1000)]]) := by
  have h := c9_augment_jitter_shuffle [[(0 : ℚ), 0, 0]]
    [[1 / 1000, 0, -(1 / 1000)]] (fun l => l) 7
    (by
      refine ⟨?_, ?_⟩
      · simp
      · intro row hrow v hv
        fin_cases hrow
        fin_cases hv <;> norm_num)
    (fun l => List.Perm.refl l)
  simpa using h

/-! ## Exception propagation

The script authors no `try`/`except`: a failure raised by a library call
inside `parse_dataset` (a `trimesh.load(f).sample(n)` on a missing file or
malformed mesh) or inside `augment` aborts the enclosing call and propagates
out unchanged.  `Except` models python exception semantics: `.error e` is an
exception `e` in flight, and the absence of any authored handler means the
embedded functions only ever `bind` — they never pattern-match an `.error`
back to an `.ok`. -/

/-- Fallible directory environment: the mesh loading/sampling call may
raise. -/
structure EnvE where
  folders : List ClassFolder
  loadSample : String → ℕ → Except String (List (List ℚ))

/-- The inner `for f in ...:` loop of `parse_dataset`: each file is loaded
and sampled in order; the first raise aborts the loop. -/
def sampleAllE (env : EnvE) (n : ℕ) :
    List String → Except String (List (List (List ℚ)))
  | [] => .ok []
  | f :: fs => do
    let pc ← env.loadSample f n
    let rest ← sampleAllE env n fs
    pure (pc :: rest)

/-- The `for i, folder in enumerate(folders):` loop under exception
semantics: per folder the train files, then the test files; a raise anywhere
abandons all partial lists and propagates. -/
def parseFoldersE (env : EnvE) (n : ℕ) :
    ℕ → List ClassFolder → Except String ParseResult
  | _, [] => .ok ⟨[], [], [], [], []⟩
  | i, fo :: rest => do
    let tr ← sampleAllE env n fo.trainFiles
    let te ← sampleAllE env n fo.testFiles
    let r ← parseFoldersE env n (i + 1) rest
    pure ⟨tr ++ r.train_points, te ++ r.test_points,
      fo.trainFiles.map (fun _ => i) ++ r.train_labels,
      fo.testFiles.map (fun _ => i) ++ r.test_labels,
      (i, fo.name) :: r.class_map⟩

/-- The function `parse_dataset` under exception semantics. -/
def parse_datasetE (env : EnvE) (n : ℕ) : Except String ParseResult :=
  parseFoldersE env n 0 env.folders

/-- The error, if any, of one library call. -/
def raiseOf (env : EnvE) (n : ℕ) (f : String) : Option String :=
  match env.loadSample f n with
  | .error e => some e
  | .ok _ => none

/-- All mesh files in the order `parse_dataset` visits them. -/
def traversalFiles (env : EnvE) : List String :=
  env.folders.flatMap fun fo => fo.trainFiles ++ fo.testFiles

/-- The first library failure a run of `parse_dataset` encounters. -/
def firstRaise (env : EnvE) (n : ℕ) : Option String :=
  (traversalFiles env).findSome? (raiseOf env n)

/-- The function `augment` under exception semantics: the jitter draw (whose `+=` is
where a shape mismatch would raise) and the shuffle call may raise. -/
def augmentE (jitter : Except String (List (List ℚ)))
    (shuffle : List (List ℚ) → Except String (List (List ℚ)))
    (points : List (List ℚ)) (label : ℕ) :
    Except String (List (List ℚ) × ℕ) := do
  let j ← jitter
  let p := addJitter points j
  let p2 ← shuffle p
  pure (p2, label)

theorem exceptBind_ok {α β : Type} (a : α) (f : α → Except String β) :
    (Except.ok a >>= f) = f a := rfl

theorem exceptBind_error {α β : Type} (e : String)
    (f : α → Except String β) :
    ((Except.error e : Except String α) >>= f) = Except.error e := rfl

theorem exceptMap_ok {α β : Type} (g : α → β) (a : α) :
    (g <$> (Except.ok a : Except String α)) = Except.ok (g a) := rfl

theorem exceptMap_error {α β : Type} (g : α → β) (e : String) :
    (g <$> (Except.error e : Except String α)) =
      (Except.error e : Except String β) := rfl

theorem sampleAllE_error_iff (env : EnvE) (n : ℕ) :
    ∀ (fs : List String) (e : String),
      sampleAllE env n fs = .error e ↔ fs.findSome? (raiseOf env n) = some e := by
  intro fs
  induction fs with
  | nil => intro e; simp [sampleAllE, List.findSome?]
  | cons f fs ih =>
      intro e
      cases hf : env.loadSample f n with
      | error err =>
          simp [sampleAllE, hf, raiseOf, List.findSome?_cons, exceptBind_error]
      | ok pc =>
          cases hrest : sampleAllE env n fs with
          | error err =>
              simp [sampleAllE, hf, hrest, raiseOf, List.findSome?_cons,
                exceptBind_ok, exceptBind_error, exceptMap_ok, exceptMap_error,
                ← ih]
          | ok v =>
              simp [sampleAllE, hf, hrest, raiseOf, List.findSome?_cons,
                exceptBind_ok, exceptBind_error, exceptMap_ok, exceptMap_error,
                ← ih]

theorem sampleAllE_ok (env : EnvE) (n : ℕ) :
    ∀ fs : List String, fs.findSome? (raiseOf env n) = none →
      ∃ v, sampleAllE env n fs = .ok v := by
  intro fs
  induction fs with
  | nil => exact fun _ => ⟨[], rfl⟩
  | cons f fs ih =>
      intro h
      cases hf : env.loadSample f n with
      | error err => simp [List.findSome?_cons, raiseOf, hf] at h
      | ok pc =>
          simp only [List.findSome?_cons, raiseOf, hf] at h
          obtain ⟨v, hv⟩ := ih h
          exact ⟨pc :: v,
            by simp [sampleAllE, hf, hv, exceptBind_ok, exceptMap_ok]⟩

theorem parseFoldersE_error_iff (env : EnvE) (n : ℕ) :
    ∀ (folders : List ClassFolder) (i : ℕ) (e : String),
      parseFoldersE env n i folders = .error e ↔
        (folders.flatMap fun fo => fo.trainFiles ++ fo.testFiles).findSome?
          (raiseOf env n) = some e := by
  intro folders
  induction folders with
  | nil => intro i e; simp [parseFoldersE]
  | cons fo rest ih =>
      intro i e
      rw [List.flatMap_cons, List.findSome?_append, List.findSome?_append]
      cases htr : (fo.trainFiles).findSome? (raiseOf env n) with
      | some err =>
          have h1 : sampleAllE env n fo.trainFiles = .error err :=
            (sampleAllE_error_iff env n _ _).mpr htr
          simp [parseFoldersE, h1, exceptBind_error]
      | none =>
          obtain ⟨tr, h1⟩ := sampleAllE_ok env n _ htr
          cases hte : (fo.testFiles).findSome? (raiseOf env n) with
          | some err =>
              have h2 : sampleAllE env n fo.testFiles = .error err :=
                (sampleAllE_error_iff env n _ _).mpr hte
              simp [parseFoldersE, h1, h2, exceptBind_ok, exceptBind_error]
          | none =>
              obtain ⟨te, h2⟩ := sampleAllE_ok env n _ hte
              cases hrest : parseFoldersE env n (i + 1) rest with
              | error err =>
                  simp [parseFoldersE, h1, h2, hrest, exceptBind_ok,
                    exceptBind_error, exceptMap_error, ← ih (i + 1), hrest]
              | ok r =>
                  simp [parseFoldersE, h1, h2, hrest, exceptBind_ok,
                    exceptMap_ok, ← ih (i + 1), hrest]

theorem parseFoldersE_ok (env : EnvE) (n : ℕ) :
    ∀ (folders : List ClassFolder) (i : ℕ),
      (folders.flatMap fun fo => fo.trainFiles ++ fo.testFiles).findSome?
        (raiseOf env n) = none →
      ∃ r, parseFoldersE env n i folders = .ok r := by
  intro folders
  induction folders with
  | nil => exact fun i _ => ⟨⟨[], [], [], [], []⟩, rfl⟩
  | cons fo rest ih =>
      intro i h
      rw [List.flatMap_cons, List.findSome?_append, List.findSome?_append] at h
      cases htr : (fo.trainFiles).findSome? (raiseOf env n) with
      | some err => rw [htr] at h; simp at h
      | none =>
          rw [htr] at h
          cases hte : (fo.testFiles).findSome? (raiseOf env n) with
          | some err => rw [hte] at h; simp at h
          | none =>
              rw [hte] at h
              simp only [Option.none_or] at h
              obtain ⟨tr, h1⟩ := sampleAllE_ok env n _ htr
              obtain ⟨te, h2⟩ := sampleAllE_ok env n _ hte
              obtain ⟨r, h3⟩ := ih (i + 1) h
              exact ⟨⟨tr ++ r.train_points, te ++ r.test_points,
                  fo.trainFiles.map (fun _ => i) ++ r.train_labels,
                  fo.testFiles.map (fun _ => i) ++ r.test_labels,
                  (i, fo.name) :: r.class_map⟩, by
                simp [parseFoldersE, h1, h2, h3, exceptBind_ok, exceptMap_ok]⟩

/-! ### Claim C6 -/

/-- C6: the script catches and recovers from nothing.  A failing library
call inside `parse_dataset` surfaces as exactly the first raised error —
unchanged, with no partial result and no retry path — and a run with no
failing call returns normally; likewise `augment` forwards a raise of either
of its library calls unchanged. -/
theorem c6_no_error_handling (env : EnvE) (n : ℕ) :
    (∀ e, parse_datasetE env n = .error e ↔ firstRaise env n = some e) ∧
    (firstRaise env n = none → ∃ r, parse_datasetE env n = .ok r) ∧
    (∀ e shuffle points label,
      augmentE (.error e) shuffle points label = .error e) ∧
    (∀ j shuffle points label e,
      shuffle (addJitter points j) = .error e →
      augmentE (.ok j) shuffle points label = .error e) := by
  refine ⟨fun e => parseFoldersE_error_iff env n env.folders 0 e,
    fun h => parseFoldersE_ok env n env.folders 0 h,
    fun e shuffle points label => rfl,
    fun j shuffle points label e h => ?_⟩
  simp [augmentE, h, exceptBind_ok, exceptMap_error]

/-- C6, witness: a one-folder environment whose only mesh raises `"boom"`;
`parse_dataset` propagates exactly that error, and `augment` forwards a
raising shuffle. -/
theorem c6_no_error_handling_witness :
    parse_datasetE
        ⟨[⟨"chair", ["chair/train/chair_0001.off"], []⟩],
          fun _ _ => .error "boom"⟩ 4 = .error "boom" ∧
    augmentE (.ok [[0, 0, 0]]) (fun _ => .error "late") [[0, 0, 0]] 3 =
      .error "late" := by
  have h := c6_no_error_handling
    ⟨[⟨"chair", ["chair/train/chair_0001.off"], []⟩],
      fun _ _ => .error "boom"⟩ 4
  exact ⟨(h.1 "boom").mpr rfl,
    h.2.2.2 [[0, 0, 0]] (fun _ => .error "late") [[0, 0, 0]] 3 "late" rfl⟩

/-! ## Cell-by-cell stage trace

The notebook's code cells run top to bottom.  Each event records the cell it
comes from and the pipeline stage its library call belongs to:

* cell 8 — `tf.keras.utils.get_file(..., extract=True)`: dataset fetch;
* cell 10 — `trimesh.load` + `mesh.show()` of one demo mesh (a trimesh scene
  render, neither sampling into a point cloud nor a matplotlib plot; it
  belongs to none of the claimed stages and carries no event);
* cell 12 — `points = mesh.sample(2048)` (mesh sampling) followed by
  `plt.show()` of the sampled cloud (plotting);
* cell 16 — `parse_dataset(NUM_POINTS)`: mesh sampling over every dataset
  file;
* cell 18 — `tf.data.Dataset.from_tensor_slices` / `shuffle` / `map` /
  `batch`: tensor dataset construction;
* cell 26 — `keras.Model(...)` over the layer stack: model definition;
* cell 28 — `model.compile(...)` and `model.fit(...)`;
* cell 30 — `model.predict(points)` (inference) then the `plt.show()` of the
  prediction figure (plotting). -/

inductive Stage where
  | fetch
  | meshSampling
  | tensorDataset
  | modelDefinition
  | compileFit
  | inference
  | plotting
  deriving DecidableEq

/-- A library call of the notebook, tagged with its cell. -/
structure CellEvent where
  cell : ℕ
  stage : Stage
  deriving DecidableEq

/-- The notebook's events in execution order. -/
def notebookTrace : List CellEvent :=
  [⟨8, .fetch⟩,
   ⟨12, .meshSampling⟩, ⟨12, .plotting⟩,
   ⟨16, .meshSampling⟩,
   ⟨18, .tensorDataset⟩,
   ⟨26, .modelDefinition⟩,
   ⟨28, .compileFit⟩,
   ⟨30, .inference⟩, ⟨30, .plotting⟩]

/-- The position of a stage in the order the claim asserts. -/
def stageRank : Stage → ℕ
  | .fetch => 0
  | .meshSampling => 1
  | .tensorDataset => 2
  | .modelDefinition => 3
  | .compileFit => 4
  | .inference => 5
  | .plotting => 6

/-- The claimed temporal property: each stage completes before the next begins and no stage is revisited
after a later stage has started: the stage ranks along the trace never
decrease. -/
def stagesInClaimedOrder (t : List Stage) : Prop :=
  List.Chain' (fun a b => stageRank a ≤ stageRank b) t

/-! ### Claim C7 -/

/-- C7, counterexample: the full notebook trace violates the claimed linear
order — cell 12 plots a demonstration point cloud (a `plotting` event)
before the dataset parse, the tensor dataset construction, the model
definition and the training, so mesh sampling is revisited after plotting
has started. -/
theorem c7_counterexample :
    ¬ stagesInClaimedOrder (notebookTrace.map CellEvent.stage) := by
  simp [stagesInClaimedOrder, notebookTrace, List.chain'_cons, stageRank]

/-- C7, amended: apart from the exploratory demonstration cell 12 (which
samples one mesh and plots it before the dataset is parsed), the pipeline
stages occur in exactly the claimed order — fetch, mesh sampling, tensor
dataset construction, model definition, compile/fit, inference, plotting —
each exactly once except plotting, which recurs only as the final stage, and
none revisited after a later stage has started. -/
theorem c7_linear_pipeline_excluding_demo_cell :
    ((notebookTrace.filter fun e => !(e.cell == 12)).map CellEvent.stage =
      [.fetch, .meshSampling, .tensorDataset, .modelDefinition, .compileFit,
        .inference, .plotting]) ∧
    stagesInClaimedOrder
      ((notebookTrace.filter fun e => !(e.cell == 12)).map CellEvent.stage) ∧
    ((notebookTrace.filter fun e => !(e.cell == 12)).map CellEvent.stage).Nodup := by
  refine ⟨by decide, ?_, by decide⟩
  simp [stagesInClaimedOrder, notebookTrace, List.chain'_cons, stageRank]

/-! ## Configuration constants

Source (cells 16, 26, 28):
```python
NUM_POINTS = 2048
NUM_CLASSES = 10
BATCH_SIZE = 32

train_points, test_points, train_labels, test_labels, CLASS_MAP = parse_dataset(
    NUM_POINTS
)
...
train_dataset = train_dataset.shuffle(len(train_points)).map(augment).batch(BATCH_SIZE)
test_dataset = test_dataset.shuffle(len(test_points)).batch(BATCH_SIZE)
...
outputs = layers.Dense(NUM_CLASSES, activation="softmax")(x)
...
model.compile(
    loss="sparse_categorical_crossentropy",
    optimizer=keras.optimizers.Adam(learning_rate=0.001),
    metrics=["sparse_categorical_accuracy"],
)
model.fit(train_dataset, epochs=20, validation_data=test_dataset)
```
-/

def NUM_POINTS : ℕ := 2048

def NUM_CLASSES : ℕ := 10

def BATCH_SIZE : ℕ := 32

/-- The arguments the script passes at each call site that consumes a
configuration value. -/
structure ScriptArgs where
  parse_num_points : ℕ
  train_batch_size : ℕ
  test_batch_size : ℕ
  final_dense_units : ℕ
  adam_learning_rate : ℚ
  fit_epochs : ℕ

/-- The notebook's call-site arguments: `parse_dataset(NUM_POINTS)`,
`.batch(BATCH_SIZE)` on both datasets, `layers.Dense(NUM_CLASSES, ...)`,
`keras.optimizers.Adam(learning_rate=0.001)` and
`model.fit(..., epochs=20)`.  A closed constant: the script offers no
external configuration surface that could flow into any field. -/
def scriptArgs : ScriptArgs where
  parse_num_points := NUM_POINTS
  train_batch_size := BATCH_SIZE
  test_batch_size := BATCH_SIZE
  final_dense_units := NUM_CLASSES
  adam_learning_rate := 1 / 1000
  fit_epochs := 20

/-! ### Claim C5 -/

/-- C5: the configuration is exactly the hard-coded constants point count
2048, class count 10, batch size 32, learning rate 0.001 and epoch count 20,
and every consuming call site (dataset parsing, batching of both datasets,
the classification head, the optimizer, fit) receives exactly these
values. -/
theorem c5_hard_coded_configuration :
    NUM_POINTS = 2048 ∧ NUM_CLASSES = 10 ∧ BATCH_SIZE = 32 ∧
    scriptArgs = ⟨2048, 32, 32, 10, 1 / 1000, 20⟩ ∧
    (∀ env : Env, parse_dataset env scriptArgs.parse_num_points =
      parse_dataset env 2048) := by
  exact ⟨rfl, rfl, rfl, rfl, fun env => rfl⟩

end PointNet
